import Mathlib

/-!
Shallow embedding of the turn-engine logic of the audio relay game server
(src/server.js and the shared-state variant src/unnamed/part_000): the game
state, status computation with timeout reclamation, the visibility
projection, the two record routes, reset, and JSON persistence of the state.

Modelling conventions:
* A participant slot is the positional 4-tuple `[firstClipRef, secondClipRef,
  displayName, firstClipTimestamp]`; we use a structure with those four
  fields.  Every slot in the embedding is a full 4-tuple, so the source's
  `lastPlayer.length >= 4` guard is always satisfied and is dropped.
* Clip refs are `Option String`; JavaScript truthiness of a clip ref is
  modelled as `Option.isSome` (the generated file names are never the empty
  string).  Display names are plain `String`, and the JS falsiness of `""`
  in `player[2] || default` is kept.  Timestamps are `Option Int`, and their
  JS truthiness is modelled exactly: both `null` and `0` are falsy in the
  guard `if (recordingStartTime && ...)`.
* The clock `Date.now()` is threaded as an explicit parameter `now`.
* In-place mutation of the last array element is modelled as replacing the
  state by `s.dropLast ++ [updated]`.
* The gateway-generated file name is passed in as the `clip` parameter of
  the record operations (spec signature `recordFirst(state, clipRef, ...)`).
-/

structure Slot where
  first : Option String
  second : Option String
  name : String
  ts : Option Int
  deriving DecidableEq, Repr, Inhabited

abbrev GameState := List Slot

structure PlayerStatus where
  isNewPlayer : Bool
  playerNumber : Nat
  needsSecondFile : Bool
  canRecordFirst : Bool
  canRecordSecond : Bool
  isRecording : Bool
  deriving DecidableEq, Repr

/-- JavaScript truthiness of the stored `firstClipTimestamp`: `null` and `0`
are falsy, any other number is truthy (source: `if (recordingStartTime && ...)`). -/
def tsTruthy : Option Int → Bool
  | none => false
  | some v => v != 0

/-- Embedding of `getCurrentPlayerStatus` (identical in both source files).
Returns the status together with the possibly mutated state, because the
timeout branch clears `lastPlayer[0]` and `lastPlayer[3]` in place. -/
def getCurrentPlayerStatus (s : GameState) (now : Int) : PlayerStatus × GameState :=
  match s.getLast? with
  | none =>
      (⟨true, 1, false, true, false, false⟩, s)
  | some lastPlayer =>
      -- If last player has both files, next player can start
      if lastPlayer.first.isSome && lastPlayer.second.isSome then
        (⟨true, s.length + 1, false, true, false, false⟩, s)
      -- If last player only has first file, they need to record second file
      else if lastPlayer.first.isSome && !lastPlayer.second.isSome then
        -- Timeout (2 minutes): clear the first recording and allow new player
        if tsTruthy lastPlayer.ts && decide (now - lastPlayer.ts.getD 0 > 120000) then
          (⟨true, s.length, false, true, false, false⟩,
            s.dropLast ++ [{ lastPlayer with first := none, ts := none }])
        else
          (⟨false, s.length, true, false, true, false⟩, s)
      -- If last player has no files yet, they can record first file
      else if !lastPlayer.first.isSome then
        (⟨false, s.length, false, true, false, false⟩, s)
      else
        (⟨false, s.length, false, false, false, false⟩, s)

inductive RecordResult where
  | success (filename : String)
  | missingPayload
  | invalidTransition
  deriving DecidableEq, Repr

/-- Embedding of `POST /api/record-first-audio` from src/unnamed/part_000:
reject when no audio data, recompute the status, reject when
`!playerStatus.canRecordFirst`, otherwise push a new slot
`[filename, null, playerName || default, Date.now()]`.  Both `Date.now()`
reads of the route are the single instant `now`. -/
def recordFirst (s : GameState) (hasAudio : Bool) (clip : String)
    (playerName : String) (now : Int) : GameState × RecordResult :=
  if !hasAudio then
    (s, .missingPayload)
  else
    let r := getCurrentPlayerStatus s now
    if !r.1.canRecordFirst then
      (r.2, .invalidTransition)
    else
      let playerIdx := r.2.length
      let nm := if playerName = "" then "Spieler " ++ toString (playerIdx + 1) else playerName
      (r.2 ++ [⟨some clip, none, nm, some now⟩], .success clip)

/-- Embedding of `POST /api/record-first-audio` from src/server.js, whose
guard is `if (!playerStatus.isNewPlayer)` instead of
`if (!playerStatus.canRecordFirst)`, and whose default name prefix is
`Player`. -/
def recordFirstSession (s : GameState) (hasAudio : Bool) (clip : String)
    (playerName : String) (now : Int) : GameState × RecordResult :=
  if !hasAudio then
    (s, .missingPayload)
  else
    let r := getCurrentPlayerStatus s now
    if !r.1.isNewPlayer then
      (r.2, .invalidTransition)
    else
      let playerIdx := r.2.length
      let nm := if playerName = "" then "Player " ++ toString (playerIdx + 1) else playerName
      (r.2 ++ [⟨some clip, none, nm, some now⟩], .success clip)

/-- Embedding of `POST /api/record-second-audio` from src/unnamed/part_000:
reject when no audio data, recompute the status, reject when
`!playerStatus.canRecordSecond`, otherwise set the last slot's second file,
overwrite the name when a truthy name was supplied, and clear the
timestamp.  The `none` branch of the match is unreachable because
`canRecordSecond` is `false` on the empty state. -/
def recordSecond (s : GameState) (hasAudio : Bool) (clip : String)
    (playerName : String) (now : Int) : GameState × RecordResult :=
  if !hasAudio then
    (s, .missingPayload)
  else
    let r := getCurrentPlayerStatus s now
    if !r.1.canRecordSecond then
      (r.2, .invalidTransition)
    else
      match r.2.getLast? with
      | none => (r.2, .invalidTransition)
      | some lastPlayer =>
          (r.2.dropLast ++
            [{ lastPlayer with
                second := some clip,
                name := if playerName = "" then lastPlayer.name else playerName,
                ts := none }], .success clip)

/-- Embedding of `POST /api/reset-game`: `sharedGameState = []`. -/
def resetGame : GameState := []

structure VisibleEntry where
  playerNumber : Nat
  playerName : String
  firstFile : Option String
  secondFile : Option String
  deriving DecidableEq, Repr

/-- Loop body of `getVisibleAudioFiles`, recursing over the slot list with
the current 0-based index `i`.  The loop only reads `gameState[i]` and
`gameState[i+1]`, so the lookahead `gameState[i+1]` is the head of the
remaining list. -/
def visibleAux : Nat → List Slot → List VisibleEntry
  | _, [] => []
  | i, player :: rest =>
      { playerNumber := i + 1
        playerName := if player.name = "" then "Player " ++ toString (i + 1) else player.name
        -- First file is always visible if it exists
        firstFile := if player.first.isSome then player.first else none
        -- Second file is visible only if next player has recorded their first file
        secondFile :=
          if player.second.isSome then
            match rest with
            | next :: _ => if next.first.isSome then player.second else none
            | [] => none
          else none } :: visibleAux (i + 1) rest

/-- Embedding of `getVisibleAudioFiles` (identical in both source files). -/
def getVisibleAudioFiles (s : GameState) : List VisibleEntry :=
  visibleAux 0 s

/-- JSON values as produced by `JSON.stringify` / consumed by `JSON.parse`
for the persisted game state: the state only ever contains strings, numbers,
nulls and arrays. -/
inductive JsonVal where
  | null
  | str (s : String)
  | num (n : Int)
  | arr (elems : List JsonVal)
  deriving Repr

def encodeOptStr : Option String → JsonVal
  | none => .null
  | some v => .str v

def encodeOptInt : Option Int → JsonVal
  | none => .null
  | some v => .num v

def encodeSlot (p : Slot) : JsonVal :=
  .arr [encodeOptStr p.first, encodeOptStr p.second, .str p.name, encodeOptInt p.ts]

/-- `saveGameState` from src/unnamed/part_000: `JSON.stringify(sharedGameState)`,
modelled at the JSON-tree level (the persisted form is the array of
positional 4-tuples). -/
def saveGameState (s : GameState) : JsonVal :=
  .arr (s.map encodeSlot)

def parseOptStr : JsonVal → Option (Option String)
  | .null => some none
  | .str v => some (some v)
  | _ => none

def parseOptInt : JsonVal → Option (Option Int)
  | .null => some none
  | .num v => some (some v)
  | _ => none

def parseSlot : JsonVal → Option Slot
  | .arr [f, sec, nm, t] =>
      match parseOptStr f, parseOptStr sec, nm, parseOptInt t with
      | some f2, some s2, .str n2, some t2 => some ⟨f2, s2, n2, t2⟩
      | _, _, _, _ => none
  | _ => none

def parseSlots : List JsonVal → Option (List Slot)
  | [] => some []
  | j :: rest =>
      match parseSlot j, parseSlots rest with
      | some p, some ps => some (p :: ps)
      | _, _ => none

/-- `loadGameState` from src/unnamed/part_000: `JSON.parse` of the persisted
form back into the slot list, modelled at the JSON-tree level. -/
def loadGameState (j : JsonVal) : Option GameState :=
  match j with
  | .arr elems => parseSlots elems
  | _ => none

/-- Number of slots whose first clip ref is the given clip. -/
def countFirst (s : GameState) (c : String) : Nat :=
  (s.filter (fun p => p.first = some c)).length

/-- A slot that is allowed anywhere before the last position: either fully
complete (both clips present) or reclaimed (first clip cleared). -/
def SlotOk (p : Slot) : Prop :=
  (p.first.isSome = true ∧ p.second.isSome = true) ∨ p.first = none

/-- Only the last slot may be incomplete: every slot before the last is
`SlotOk`. -/
def StateInv (s : GameState) : Prop :=
  ∀ p ∈ s.dropLast, SlotOk p

/-- States reachable from the empty state by the four operations of the
engine: status computation (whose timeout branch mutates), the two record
routes (in both their success and rejection outcomes), and reset. -/
inductive Reachable : GameState → Prop where
  | empty : Reachable []
  | statusStep (s : GameState) (now : Int) :
      Reachable s → Reachable (getCurrentPlayerStatus s now).2
  | firstStep (s : GameState) (hasAudio : Bool) (clip playerName : String) (now : Int) :
      Reachable s → Reachable (recordFirst s hasAudio clip playerName now).1
  | secondStep (s : GameState) (hasAudio : Bool) (clip playerName : String) (now : Int) :
      Reachable s → Reachable (recordSecond s hasAudio clip playerName now).1
  | resetStep : Reachable resetGame

/-! ## Helper lemmas about the status computation -/

lemma status_state_length (s : GameState) (now : Int) :
    ((getCurrentPlayerStatus s now).2).length = s.length := by
  cases s using List.reverseRecOn with
  | nil => rfl
  | append_singleton xs x =>
      simp only [getCurrentPlayerStatus, List.getLast?_concat]
      split_ifs <;> simp

lemma status_state_dropLast (s : GameState) (now : Int) :
    ((getCurrentPlayerStatus s now).2).dropLast = s.dropLast := by
  cases s using List.reverseRecOn with
  | nil => rfl
  | append_singleton xs x =>
      simp only [getCurrentPlayerStatus, List.getLast?_concat]
      split_ifs <;> simp

lemma status_state_of_not_canRecordFirst (s : GameState) (now : Int)
    (h : (getCurrentPlayerStatus s now).1.canRecordFirst = false) :
    (getCurrentPlayerStatus s now).2 = s := by
  cases s using List.reverseRecOn with
  | nil => simp [getCurrentPlayerStatus] at h
  | append_singleton xs x =>
      simp only [getCurrentPlayerStatus, List.getLast?_concat] at h ⊢
      split_ifs at h ⊢ <;> simp_all

lemma status_state_of_not_canRecordSecond (s : GameState) (now : Int)
    (h : (getCurrentPlayerStatus s now).1.canRecordSecond = false) :
    (getCurrentPlayerStatus s now).2 = s ∨
      ∃ x, (getCurrentPlayerStatus s now).2 = s.dropLast ++ [x] := by
  cases s using List.reverseRecOn with
  | nil => exact Or.inl rfl
  | append_singleton xs x =>
      simp only [getCurrentPlayerStatus, List.getLast?_concat]
      split_ifs <;> simp

lemma status_last_ok_of_canRecordFirst (s : GameState) (now : Int)
    (h : (getCurrentPlayerStatus s now).1.canRecordFirst = true) :
    ∀ p ∈ ((getCurrentPlayerStatus s now).2).getLast?, SlotOk p := by
  cases s using List.reverseRecOn with
  | nil =>
      intro p hp
      simp [getCurrentPlayerStatus] at hp
  | append_singleton xs x =>
      intro p hp
      rcases x with ⟨f, sec, nm, t⟩
      rcases f with _ | f <;> rcases sec with _ | sec <;>
        simp only [getCurrentPlayerStatus, List.getLast?_concat] at h hp <;>
        split_ifs at h hp <;>
        simp_all [SlotOk, List.getLast?_concat, List.dropLast_concat, Option.mem_def] <;>
        (subst hp; simp)

lemma mem_dropLast_or_getLast {l : List Slot} {p : Slot} (hp : p ∈ l) :
    p ∈ l.dropLast ∨ p ∈ l.getLast? := by
  cases l using List.reverseRecOn with
  | nil => simp at hp
  | append_singleton xs x =>
      simp only [List.dropLast_concat, List.getLast?_concat, Option.mem_def,
        Option.some.injEq, List.mem_append, List.mem_singleton] at hp ⊢
      exact hp.imp id Eq.symm

lemma status_preserves_inv (s : GameState) (now : Int) (h : StateInv s) :
    StateInv (getCurrentPlayerStatus s now).2 := by
  intro p hp
  rw [status_state_dropLast] at hp
  exact h p hp

lemma recordFirst_preserves_inv (s : GameState) (a : Bool) (c n : String) (now : Int)
    (h : StateInv s) : StateInv (recordFirst s a c n now).1 := by
  unfold recordFirst
  by_cases ha : a
  · simp only [ha, Bool.not_true, Bool.false_eq_true, if_false]
    by_cases hc : (getCurrentPlayerStatus s now).1.canRecordFirst
    · simp only [hc, Bool.not_true, Bool.false_eq_true, if_false]
      intro p hp
      simp only [List.dropLast_concat] at hp
      rcases mem_dropLast_or_getLast hp with hmem | hmem
      · rw [status_state_dropLast] at hmem
        exact h p hmem
      · exact status_last_ok_of_canRecordFirst s now hc p hmem
    · simp only [Bool.not_eq_true] at hc
      simp only [hc, Bool.not_false, if_true]
      exact status_preserves_inv s now h
  · simp only [Bool.not_eq_true] at ha
    simp only [ha, Bool.not_false, if_true]
    exact h

lemma recordSecond_preserves_inv (s : GameState) (a : Bool) (c n : String) (now : Int)
    (h : StateInv s) : StateInv (recordSecond s a c n now).1 := by
  unfold recordSecond
  by_cases ha : a
  · simp only [ha, Bool.not_true, Bool.false_eq_true, if_false]
    by_cases hc : (getCurrentPlayerStatus s now).1.canRecordSecond
    · simp only [hc, Bool.not_true, Bool.false_eq_true, if_false]
      cases hL : (getCurrentPlayerStatus s now).2.getLast? with
      | none => exact status_preserves_inv s now h
      | some lastPlayer =>
          intro p hp
          simp only [List.dropLast_concat] at hp
          exact status_preserves_inv s now h p hp
    · simp only [Bool.not_eq_true] at hc
      simp only [hc, Bool.not_false, if_true]
      exact status_preserves_inv s now h
  · simp only [Bool.not_eq_true] at ha
    simp only [ha, Bool.not_false, if_true]
    exact h

/-! ## Claim theorems -/

/-- C5: In every game state reachable from the empty state by status
computation, the two record routes (in success or rejection outcome) and
reset, only the last slot may be incomplete: every slot before the last
either has both clip refs present or is a reclaimed slot with its first
clip ref cleared.  All four operations preserve this invariant (each
constructor case of the induction is exactly one operation's preservation). -/
theorem reachable_lastOnlyIncomplete (s : GameState) (hs : Reachable s) : StateInv s := by
  induction hs with
  | empty => intro p hp; simp at hp
  | statusStep s now _ ih => exact status_preserves_inv s now ih
  | firstStep s hasAudio clip playerName now _ ih =>
      exact recordFirst_preserves_inv s hasAudio clip playerName now ih
  | secondStep s hasAudio clip playerName now _ ih =>
      exact recordSecond_preserves_inv s hasAudio clip playerName now ih
  | resetStep => intro p hp; simp [resetGame] at hp

/-- Witness for C5: the invariant holds in the concrete reachable state
obtained by recording a first clip from the empty state. -/
theorem reachable_lastOnlyIncomplete_witness :
    StateInv [(⟨some "a.wav", none, "Alice", some 0⟩ : Slot)] :=
  reachable_lastOnlyIncomplete _
    (Reachable.firstStep [] true "a.wav" "Alice" 0 Reachable.empty)

/-- C10: For every game state of full 4-tuple slots, exactly one of
`canRecordFirst` and `canRecordSecond` is true (never both, never neither —
so the final all-flags-false fallback of `getCurrentPlayerStatus` is never
returned), and `needsSecondFile` always equals `canRecordSecond`. -/
theorem status_flags_exclusive (s : GameState) (now : Int) :
    (getCurrentPlayerStatus s now).1.canRecordFirst
        = !(getCurrentPlayerStatus s now).1.canRecordSecond ∧
    (getCurrentPlayerStatus s now).1.needsSecondFile
        = (getCurrentPlayerStatus s now).1.canRecordSecond := by
  cases s using List.reverseRecOn with
  | nil => simp [getCurrentPlayerStatus]
  | append_singleton xs x =>
      rcases x with ⟨f, sec, nm, t⟩
      rcases f with _ | f <;> rcases sec with _ | sec <;>
        simp only [getCurrentPlayerStatus, List.getLast?_concat] <;>
        split_ifs <;> simp_all

/-- C8: Whenever the last slot has a first clip, no second clip, and a
timestamp `v` with `now - v ≤ 120000`, the status is exactly
"may record second" (`needsSecondFile` and `canRecordSecond` true,
`canRecordFirst` false), the turn number is the sequence length, and
computing the status does not change the state. -/
theorem status_within_timeout (s : GameState) (lastPlayer : Slot) (v now : Int)
    (hL : s.getLast? = some lastPlayer) (h1 : lastPlayer.first.isSome = true)
    (h2 : lastPlayer.second = none) (h3 : lastPlayer.ts = some v)
    (h4 : now - v ≤ 120000) :
    getCurrentPlayerStatus s now = (⟨false, s.length, true, false, true, false⟩, s) := by
  have hnot : ¬(now - v > 120000) := by omega
  unfold getCurrentPlayerStatus
  rw [hL]
  simp [h1, h2, h3, tsTruthy, hnot]

/-- Witness for C8 at the timeout boundary `now - v = 120000`. -/
theorem status_within_timeout_witness :
    getCurrentPlayerStatus [⟨some "a.wav", none, "Alice", some 1⟩] 120001
      = (⟨false, 1, true, false, true, false⟩,
         [⟨some "a.wav", none, "Alice", some 1⟩]) :=
  status_within_timeout _ _ 1 120001 rfl rfl rfl rfl (by decide)

/-- C7: End-to-end scenario.  From the empty state,
`recordFirst("a.wav","Alice",t=0)` yields the one-slot sequence
`[(a.wav, null, "Alice", 0)]` with status may-record-second at turn 1, and
`recordSecond("b.wav","Alice",t=1000)` then yields
`[(a.wav, b.wav, "Alice", null)]` with status may-record-first (fresh
participant) at turn 2. -/
theorem endToEnd_scenario :
    recordFirst [] true "a.wav" "Alice" 0
        = ([⟨some "a.wav", none, "Alice", some 0⟩], .success "a.wav") ∧
    (getCurrentPlayerStatus [⟨some "a.wav", none, "Alice", some 0⟩] 1000).1
        = ⟨false, 1, true, false, true, false⟩ ∧
    (getCurrentPlayerStatus [⟨some "a.wav", none, "Alice", some 0⟩] 1000).2
        = [⟨some "a.wav", none, "Alice", some 0⟩] ∧
    recordSecond [⟨some "a.wav", none, "Alice", some 0⟩] true "b.wav" "Alice" 1000
        = ([⟨some "a.wav", some "b.wav", "Alice", none⟩], .success "b.wav") ∧
    (getCurrentPlayerStatus [⟨some "a.wav", some "b.wav", "Alice", none⟩] 1000).1
        = ⟨true, 2, false, true, false, false⟩ :=
  ⟨rfl, rfl, rfl, rfl, rfl⟩

lemma parseSlot_encodeSlot (p : Slot) : parseSlot (encodeSlot p) = some p := by
  rcases p with ⟨f, sec, nm, t⟩
  rcases f with _ | f <;> rcases sec with _ | sec <;> rcases t with _ | t <;> rfl

/-- C9: Round-trip identity of the persistence pair: serializing any game
state (a list of 4-tuples of first clip ref or null, second clip ref or
null, display name, timestamp or null) to the persisted JSON form and
parsing it back yields the original state. -/
theorem persist_roundTrip (s : GameState) : loadGameState (saveGameState s) = some s := by
  induction s with
  | nil => rfl
  | cons p rest ih =>
      simp only [loadGameState, saveGameState] at ih ⊢
      simp only [List.map_cons, parseSlots, parseSlot_encodeSlot, ih]

/-- Counterexample for C2: for the one-slot state `[(a.wav, null, "Alice", 0)]`
at `now = 121000`, no reclamation happens — the timestamp `0` is falsy in the
guard `if (recordingStartTime && ...)`, so the state is unchanged and the
status is may-record-second, not may-record-first. -/
theorem timeoutZero_counterexample :
    (getCurrentPlayerStatus [⟨some "a.wav", none, "Alice", some 0⟩] 121000).2
        = [⟨some "a.wav", none, "Alice", some 0⟩] ∧
    (getCurrentPlayerStatus [⟨some "a.wav", none, "Alice", some 0⟩] 121000).1.canRecordFirst
        = false ∧
    (getCurrentPlayerStatus [⟨some "a.wav", none, "Alice", some 0⟩] 121000).1.canRecordSecond
        = true ∧
    (getCurrentPlayerStatus [⟨some "a.wav", none, "Alice", some 0⟩] 121000).2
        ≠ [⟨none, none, "Alice", none⟩] :=
  ⟨rfl, rfl, rfl, by decide⟩

/-- C2 (amended): for the one-slot state `[(a.wav, null, "Alice", ts)]` with a
non-zero timestamp `ts` and `now - ts > 120000`, status computation triggers
reclamation: the state becomes `[(null, null, "Alice", null)]` (length
unchanged) and the status reports a fresh participant may record first at
turn 1.  (At `ts = 0` the timestamp is falsy and no reclamation occurs.) -/
theorem timeout_reclaims (ts now : Int) (h1 : ts ≠ 0) (h2 : now - ts > 120000) :
    getCurrentPlayerStatus [⟨some "a.wav", none, "Alice", some ts⟩] now
      = (⟨true, 1, false, true, false, false⟩, [⟨none, none, "Alice", none⟩]) := by
  unfold getCurrentPlayerStatus
  simp [tsTruthy, bne_iff_ne, h1, h2]

/-- Witness for C2 (amended) at `ts = 1`, `now = 121001`. -/
theorem timeout_reclaims_witness :
    getCurrentPlayerStatus [⟨some "a.wav", none, "Alice", some 1⟩] 121001
      = (⟨true, 1, false, true, false, false⟩, [⟨none, none, "Alice", none⟩]) :=
  timeout_reclaims 1 121001 (by decide) (by decide)

/-- Counterexample for C1: with a reclaimed last slot
`[(null, null, "Alice", null)]` the status permits recording a first clip,
but `recordFirst` appends a new slot instead of overwriting in place: the
length goes from 1 to 2, and the result is not the in-place overwrite
`[(b.wav, null, "Bob", 50)]` the claim describes. -/
theorem recordFirst_reclaimed_counterexample :
    (getCurrentPlayerStatus [⟨none, none, "Alice", none⟩] 50).1.canRecordFirst = true ∧
    ([⟨none, none, "Alice", none⟩] : GameState).length = 1 ∧
    (recordFirst [⟨none, none, "Alice", none⟩] true "b.wav" "Bob" 50).1.length = 2 ∧
    (recordFirst [⟨none, none, "Alice", none⟩] true "b.wav" "Bob" 50).1
        ≠ [⟨some "b.wav", none, "Bob", some 50⟩] :=
  ⟨rfl, rfl, rfl, by decide⟩

/-- C1 (amended): whenever the status permits recording a first clip
(including when the last slot is a reclaimed slot), `recordFirst` appends a
new slot after the post-status state rather than overwriting in place: the
length grows by one, the new last slot holds the freshly supplied clip, and
if no existing slot holds that clip then exactly one slot of the result
does. -/
theorem recordFirst_appends (s : GameState) (clip nm : String) (now : Int)
    (h : (getCurrentPlayerStatus s now).1.canRecordFirst = true) :
    (recordFirst s true clip nm now).2 = .success clip ∧
    (recordFirst s true clip nm now).1
        = (getCurrentPlayerStatus s now).2 ++
          [⟨some clip, none,
            if nm = "" then "Spieler " ++ toString ((getCurrentPlayerStatus s now).2.length + 1)
            else nm,
            some now⟩] ∧
    (recordFirst s true clip nm now).1.length = s.length + 1 ∧
    (recordFirst s true clip nm now).1.getLast?
        = some ⟨some clip, none,
            if nm = "" then "Spieler " ++ toString ((getCurrentPlayerStatus s now).2.length + 1)
            else nm,
            some now⟩ ∧
    (countFirst (getCurrentPlayerStatus s now).2 clip = 0 →
      countFirst (recordFirst s true clip nm now).1 clip = 1) := by
  refine ⟨?_, ?_, ?_, ?_, ?_⟩
  · simp [recordFirst, h]
  · simp [recordFirst, h]
  · simp [recordFirst, h, status_state_length]
  · simp [recordFirst, h]
  · intro h0
    simp only [countFirst] at h0
    simp [recordFirst, h, countFirst, List.filter_append, h0]

/-- Witness for C1 (amended): recording into the reclaimed one-slot state. -/
theorem recordFirst_appends_witness :
    (recordFirst [⟨none, none, "Alice", none⟩] true "b.wav" "Bob" 50).2
        = .success "b.wav" ∧
    (recordFirst [⟨none, none, "Alice", none⟩] true "b.wav" "Bob" 50).1.length = 2 :=
  ⟨(recordFirst_appends [⟨none, none, "Alice", none⟩] "b.wav" "Bob" 50 rfl).1,
   (recordFirst_appends [⟨none, none, "Alice", none⟩] "b.wav" "Bob" 50 rfl).2.2.1⟩

/-- Counterexample for C3: in the session variant (src/server.js), the guard
is `isNewPlayer`, not `canRecordFirst` — for the reclaimed one-slot state,
`canRecordFirst` is true yet the route rejects (with no state change). -/
theorem sessionGate_counterexample :
    (getCurrentPlayerStatus [⟨none, none, "Alice", none⟩] 0).1.canRecordFirst = true ∧
    (recordFirstSession [⟨none, none, "Alice", none⟩] true "b.wav" "Bob" 0).2
        = .invalidTransition ∧
    (recordFirstSession [⟨none, none, "Alice", none⟩] true "b.wav" "Bob" 0).1
        = [⟨none, none, "Alice", none⟩] :=
  ⟨rfl, rfl, rfl⟩

/-- C3 (amended): in the shared-state variant (src/unnamed/part_000), with a
non-missing audio payload, `recordFirst` rejects with an invalid-transition
error exactly when the recomputed status's `canRecordFirst` flag is false,
and when the flag is true the mutation is applied (one slot appended) and
the call succeeds.  (The session variant gates on `isNewPlayer` instead and
additionally rejects on an unclaimed/reclaimed last slot.) -/
theorem recordFirst_gate (s : GameState) (clip nm : String) (now : Int) :
    ((recordFirst s true clip nm now).2 = .invalidTransition ↔
      (getCurrentPlayerStatus s now).1.canRecordFirst = false) ∧
    ((getCurrentPlayerStatus s now).1.canRecordFirst = true →
      (recordFirst s true clip nm now).2 = .success clip ∧
      (recordFirst s true clip nm now).1.length = s.length + 1) := by
  by_cases h : (getCurrentPlayerStatus s now).1.canRecordFirst
  · constructor
    · simp [recordFirst, h]
    · intro _
      exact ⟨by simp [recordFirst, h], by simp [recordFirst, h, status_state_length]⟩
  · simp only [Bool.not_eq_true] at h
    constructor
    · simp [recordFirst, h]
    · intro h'
      rw [h'] at h
      cases h

/-- Witness for C3 (amended): a successful first recording from the empty
state. -/
theorem recordFirst_gate_witness :
    (recordFirst [] true "a.wav" "Alice" 0).2 = .success "a.wav" ∧
    (recordFirst [] true "a.wav" "Alice" 0).1.length = 1 :=
  (recordFirst_gate [] "a.wav" "Alice" 0).2 rfl

/-- Counterexample for C4: calling `recordSecond` when its precondition is
false can mutate the state: for `[(a.wav, null, "Alice", 5)]` at
`now = 130000`, the embedded status computation reclaims the timed-out last
slot, then the call is rejected — yet the state has changed. -/
theorem rejectedRecordSecond_mutates_counterexample :
    (recordSecond [⟨some "a.wav", none, "Alice", some 5⟩] true "b.wav" "" 130000).2
        = .invalidTransition ∧
    (recordSecond [⟨some "a.wav", none, "Alice", some 5⟩] true "b.wav" "" 130000).1
        = [⟨none, none, "Alice", none⟩] ∧
    (recordSecond [⟨some "a.wav", none, "Alice", some 5⟩] true "b.wav" "" 130000).1
        ≠ [⟨some "a.wav", none, "Alice", some 5⟩] :=
  ⟨rfl, rfl, by decide⟩

/-- C4 (amended): a call whose precondition fails does report a rejection,
and a rejected `recordFirst` (missing payload or invalid transition) leaves
the state exactly unchanged; a rejected `recordSecond` leaves the state
equal to the post-status-computation state — identical to the input except
that the status computation may have reclaimed a timed-out last slot — with
the same length and no slot added or removed. -/
theorem rejected_calls_leave_state (s : GameState) (a : Bool) (clip nm : String) (now : Int) :
    ((recordFirst s a clip nm now).2 = .missingPayload →
      (recordFirst s a clip nm now).1 = s) ∧
    ((recordFirst s a clip nm now).2 = .invalidTransition →
      (recordFirst s a clip nm now).1 = s) ∧
    ((recordSecond s a clip nm now).2 = .missingPayload →
      (recordSecond s a clip nm now).1 = s) ∧
    ((recordSecond s a clip nm now).2 = .invalidTransition →
      (recordSecond s a clip nm now).1 = (getCurrentPlayerStatus s now).2 ∧
      (recordSecond s a clip nm now).1.length = s.length) ∧
    (a = true → (getCurrentPlayerStatus s now).1.canRecordFirst = false →
      (recordFirst s a clip nm now).2 = .invalidTransition) ∧
    (a = true → (getCurrentPlayerStatus s now).1.canRecordSecond = false →
      (recordSecond s a clip nm now).2 = .invalidTransition) := by
  by_cases ha : a
  · subst ha
    refine ⟨?_, ?_, ?_, ?_, ?_, ?_⟩
    · by_cases hf : (getCurrentPlayerStatus s now).1.canRecordFirst <;>
        intro hcon <;> simp [recordFirst, hf] at hcon
    · by_cases hf : (getCurrentPlayerStatus s now).1.canRecordFirst
      · intro hcon; simp [recordFirst, hf] at hcon
      · intro _
        simp only [Bool.not_eq_true] at hf
        simp [recordFirst, hf, status_state_of_not_canRecordFirst s now hf]
    · by_cases hsec : (getCurrentPlayerStatus s now).1.canRecordSecond <;>
        intro hcon <;>
        [skip; simp [recordSecond, hsec] at hcon]
      cases hL : (getCurrentPlayerStatus s now).2.getLast? <;>
        simp [recordSecond, hsec, hL] at hcon
    · by_cases hsec : (getCurrentPlayerStatus s now).1.canRecordSecond
      · intro hcon
        cases hL : (getCurrentPlayerStatus s now).2.getLast? with
        | none => simp [recordSecond, hsec, hL, status_state_length]
        | some lastPlayer => simp [recordSecond, hsec, hL] at hcon
      · intro _
        simp only [Bool.not_eq_true] at hsec
        simp [recordSecond, hsec, status_state_length]
    · intro _ hf
      simp [recordFirst, hf]
    · intro _ hsec
      simp [recordSecond, hsec]
  · simp only [Bool.not_eq_true] at ha
    subst ha
    exact ⟨fun _ => rfl, fun hcon => by simp [recordFirst] at hcon,
      fun _ => rfl, fun hcon => by simp [recordSecond] at hcon,
      fun hcon => absurd hcon Bool.false_ne_true,
      fun hcon => absurd hcon Bool.false_ne_true⟩

/-- Witness for C4 (amended): a rejected `recordFirst` within timeout, and
the rejected reclaiming `recordSecond` of the counterexample. -/
theorem rejected_calls_leave_state_witness :
    (recordFirst [⟨some "a.wav", none, "Alice", some 5⟩] true "c.wav" "" 5).1
        = [⟨some "a.wav", none, "Alice", some 5⟩] ∧
    (recordSecond [⟨some "a.wav", none, "Alice", some 5⟩] true "b.wav" "" 130000).1
        = (getCurrentPlayerStatus [⟨some "a.wav", none, "Alice", some 5⟩] 130000).2 :=
  ⟨(rejected_calls_leave_state [⟨some "a.wav", none, "Alice", some 5⟩] true "c.wav" "" 5).2.1
      rfl,
   ((rejected_calls_leave_state [⟨some "a.wav", none, "Alice", some 5⟩] true "b.wav" ""
      130000).2.2.2.1 rfl).1⟩

lemma visibleAux_getElem? (l : List Slot) : ∀ (k i : Nat),
    ((visibleAux k l)[i]?).map (fun e => (e.playerNumber, e.firstFile, e.secondFile))
      = (l[i]?).map (fun player =>
          (k + i + 1, player.first,
            if player.second.isSome && ((l[i + 1]?).bind Slot.first).isSome
            then player.second else none)) := by
  induction l with
  | nil => intro k i; simp [visibleAux]
  | cons p rest ih =>
      intro k i
      cases i with
      | zero =>
          rcases p with ⟨f, sec, nm, t⟩
          rcases f with _ | f <;> rcases sec with _ | sec <;>
            cases rest with
            | nil => simp [visibleAux]
            | cons q qs => cases hq : q.first <;> simp [visibleAux, hq]
      | succ j =>
          have hIdx : k + 1 + j + 1 = k + (j + 1) + 1 := by omega
          have h := ih (k + 1) j
          simp only [visibleAux, List.getElem?_cons_succ]
          rw [h, hIdx]

/-- C6: For every game state and 0-based index `i`, the visibility
projection's entry for slot `i` carries turn number `i + 1`, shows the first
clip exactly when its ref is non-null (the entry's `firstFile` equals the
slot's `firstClipRef`), and shows the second clip iff the second clip ref is
non-null, a slot exists at `i + 1`, and that next slot's first clip ref is
non-null — in every other case the entry's `secondFile` is null. -/
theorem visibility_rule (s : GameState) (i : Nat) (player : Slot) (e : VisibleEntry)
    (h1 : s[i]? = some player)
    (h2 : (getVisibleAudioFiles s)[i]? = some e) :
    e.playerNumber = i + 1 ∧
    e.firstFile = player.first ∧
    e.secondFile =
      (if player.second.isSome && ((s[i + 1]?).bind Slot.first).isSome
       then player.second else none) := by
  have h := visibleAux_getElem? s 0 i
  rw [getVisibleAudioFiles] at h2
  rw [h2, h1] at h
  simp only [Option.map_some', Option.some.injEq, Prod.mk.injEq] at h
  obtain ⟨ha, hb, hc⟩ := h
  refine ⟨?_, hb, hc⟩
  rw [ha]
  omega

/-- Witness for C6: the two-slot reveal scenario — slot 1's second clip is
hidden while slot 2 has no first clip, and shown once slot 2 has one. -/
theorem visibility_rule_witness :
    ((⟨1, "Alice", some "a", none⟩ : VisibleEntry).playerNumber = 1 ∧
     (⟨1, "Alice", some "a", none⟩ : VisibleEntry).firstFile = some "a" ∧
     (⟨1, "Alice", some "a", none⟩ : VisibleEntry).secondFile = none) ∧
    ((⟨1, "Alice", some "a", some "b"⟩ : VisibleEntry).playerNumber = 1 ∧
     (⟨1, "Alice", some "a", some "b"⟩ : VisibleEntry).firstFile = some "a" ∧
     (⟨1, "Alice", some "a", some "b"⟩ : VisibleEntry).secondFile = some "b") :=
  ⟨visibility_rule [⟨some "a", some "b", "Alice", none⟩, ⟨none, none, "X", none⟩] 0
      ⟨some "a", some "b", "Alice", none⟩ ⟨1, "Alice", some "a", none⟩ rfl rfl,
   visibility_rule [⟨some "a", some "b", "Alice", none⟩, ⟨some "c", none, "X", some 9⟩] 0
      ⟨some "a", some "b", "Alice", none⟩ ⟨1, "Alice", some "a", some "b"⟩ rfl rfl⟩
